import Mathlib

set_option maxRecDepth 2048

/-!
Shallow embedding of the icon-changer repository: the ICO reader and
validator, the PE resource serializer, the BMP loader and the BMP-to-ICO
writer.  Byte streams are lists of natural numbers; each decoding helper
reduces its operands modulo 256, matching the unsigned byte fields of the
source structs.  Fallible operations return Except values whose error
constructors mirror the error taxonomy of the specification.
-/

namespace IconChanger

/-- Little-endian encoding of a 16-bit value, two bytes. -/
def le16 (v : Nat) : List Nat :=
  [v % 256, v / 256 % 256]

/-- Little-endian encoding of a 32-bit value, four bytes. -/
def le32 (v : Nat) : List Nat :=
  [v % 256, v / 256 % 256, v / 65536 % 256, v / 16777216 % 256]

/-- Reads a 16-bit little-endian value at index i of a byte list. -/
def u16At (b : List Nat) (i : Nat) : Nat :=
  b.getD i 0 % 256 + 256 * (b.getD (i + 1) 0 % 256)

/-- Reads a 32-bit little-endian value at index i of a byte list. -/
def u32At (b : List Nat) (i : Nat) : Nat :=
  b.getD i 0 % 256 + 256 * (b.getD (i + 1) 0 % 256)
    + 65536 * (b.getD (i + 2) 0 % 256) + 16777216 * (b.getD (i + 3) 0 % 256)

/-- Reads a signed 32-bit little-endian value at index i of a byte list. -/
def i32At (b : List Nat) (i : Nat) : Int :=
  let v := u32At b i
  if v < 2147483648 then (v : Int) else (v : Int) - 4294967296

/-- Errors of the ICO reader, one constructor per validation or truncation
failure of the source. -/
inductive IcoError where
  | truncatedHeader : IcoError
  | invalidHeaderReserved (actual : Nat) : IcoError
  | wrongContainerType : IcoError
  | invalidContainerType (actual : Nat) : IcoError
  | noImageEntries : IcoError
  | truncatedEntryTable : IcoError
  | invalidEntryReserved (actual : Nat) : IcoError
  | invalidEntryPlanes (actual : Nat) : IcoError
  | truncatedImageData : IcoError
  deriving Repr, DecidableEq

/-- The ICONDIR header of an ICO file: struct header in icon.hpp. -/
structure IcoHeader where
  reserved : Nat
  type : Nat
  entries_count : Nat
  deriving Repr, DecidableEq

/-- The on-disk ICONDIRENTRY: struct icon_entry in icon.hpp, 16 bytes. -/
structure IconEntry where
  width : Nat
  height : Nat
  color_count : Nat
  reserved : Nat
  planes : Nat
  bit_count : Nat
  image_size : Nat
  image_offset : Nat
  deriving Repr, DecidableEq

/-- The converted RESDIR record: struct entry in icon.hpp, packed, 14 bytes. -/
structure ResourceEntry where
  width : Nat
  height : Nat
  color_count : Nat
  reserved : Nat
  planes : Nat
  bit_count : Nat
  resource_size : Nat
  icon_id : Nat
  deriving Repr, DecidableEq

/-- The icon object: validated header, converted entries, image blobs. -/
structure Icon where
  resource_header : IcoHeader
  resource_entries : List ResourceEntry
  images : List (List Nat)
  deriving Repr, DecidableEq

/-- Decodes the 6-byte ICONDIR header from the start of a byte list. -/
def decode_header (s : List Nat) : IcoHeader :=
  { reserved := u16At s 0, type := u16At s 2, entries_count := u16At s 4 }

/-- Embeds icon::read_header: reads 6 bytes, throwing on a short read, then
validates reserved, CUR type, ICO type and entry count in that order. -/
def read_header (s : List Nat) : Except IcoError IcoHeader :=
  if s.length < 6 then .error .truncatedHeader
  else
    let h := decode_header s
    if h.reserved ≠ 0 then .error (.invalidHeaderReserved h.reserved)
    else if h.type = 2 then .error .wrongContainerType
    else if h.type ≠ 1 then .error (.invalidContainerType h.type)
    else if h.entries_count = 0 then .error .noImageEntries
    else .ok h

/-- Decodes one 16-byte ICONDIRENTRY from the start of a byte list. -/
def decode_icon_entry (s : List Nat) : IconEntry :=
  { width := s.getD 0 0 % 256
    height := s.getD 1 0 % 256
    color_count := s.getD 2 0 % 256
    reserved := s.getD 3 0 % 256
    planes := u16At s 4
    bit_count := u16At s 6
    image_size := u32At s 8
    image_offset := u32At s 12 }

/-- Decodes n consecutive 16-byte directory entries. -/
def decode_entries : Nat → List Nat → List IconEntry
  | 0, _ => []
  | n + 1, s => decode_icon_entry s :: decode_entries n (s.drop 16)

/-- Embeds the per-entry loop of icon::read_images: validates each entry in
file order and reads its blob sequentially from the remaining stream. -/
def read_images : List Nat → List IconEntry → Except IcoError (List (List Nat))
  | _, [] => .ok []
  | s, e :: rest =>
    if e.reserved ≠ 0 then .error (.invalidEntryReserved e.reserved)
    else if e.planes ≠ 0 ∧ e.planes ≠ 1 then .error (.invalidEntryPlanes e.planes)
    else if s.length < e.image_size then .error .truncatedImageData
    else
      match read_images (s.drop e.image_size) rest with
      | .error err => .error err
      | .ok blobs => .ok (s.take e.image_size :: blobs)

/-- Embeds the loop of icon::convert_entries carrying the running icon id
counter, which the source increments before each assignment. -/
def convert_entries_from (iconId : Nat) : List IconEntry → List ResourceEntry
  | [] => []
  | e :: rest =>
    { width := e.width
      height := e.height
      color_count := e.color_count
      reserved := e.reserved
      planes := e.planes
      bit_count := e.bit_count
      resource_size := e.image_size
      icon_id := iconId + 1 } :: convert_entries_from (iconId + 1) rest

/-- Embeds icon::convert_entries, whose counter starts at zero. -/
def convert_entries (entries : List IconEntry) : List ResourceEntry :=
  convert_entries_from 0 entries

/-- Embeds the part of the icon constructor after the validated header:
the entry table of entries_count 16-byte records is read as one block,
short reads failing, then the images are read and the entries converted. -/
def load_after_header (s : List Nat) (hd : IcoHeader) : Except IcoError Icon :=
  if (s.drop 6).length < hd.entries_count * 16 then .error .truncatedEntryTable
  else
    match read_images ((s.drop 6).drop (hd.entries_count * 16))
        (decode_entries hd.entries_count (s.drop 6)) with
    | .error e => .error e
    | .ok imgs =>
      .ok { resource_header := hd
            resource_entries := convert_entries (decode_entries hd.entries_count (s.drop 6))
            images := imgs }

/-- Embeds the icon constructor: header, entry table, images, conversion. -/
def load_icon (s : List Nat) : Except IcoError Icon :=
  match read_header s with
  | .error e => .error e
  | .ok hd => load_after_header s hd

/-- Embeds icon::serialize for the packed 6-byte header struct. -/
def serialize_header (h : IcoHeader) : List Nat :=
  le16 h.reserved ++ le16 h.type ++ le16 h.entries_count

/-- Embeds icon::serialize for the packed 14-byte RESDIR entry struct. -/
def serialize_entry (e : ResourceEntry) : List Nat :=
  [e.width % 256, e.height % 256, e.color_count % 256, e.reserved % 256]
    ++ le16 e.planes ++ le16 e.bit_count ++ le32 e.resource_size ++ le16 e.icon_id

/-- Embeds icon::get_header: the serialized header followed by the
serialized resource entries in stored order. -/
def get_header (ic : Icon) : List Nat :=
  serialize_header ic.resource_header ++ (ic.resource_entries.map serialize_entry).flatten

/-!
Specification-side formulations used to settle the claims about the reader
and the serializer.  Each is written from the wording of the claim and is
compared with the corresponding definition translated from the source.
-/

/-- Claim-side reading of the image payloads: entries are processed in file
order, each failing on a nonzero reserved byte, then on planes outside 0
and 1, and otherwise the blob of an entry is the contiguous run of
image_size bytes of the original stream starting at the running absolute
offset, which is the sum of the sizes of the preceding blobs; a stream too
short for that run fails with truncatedImageData.  The image_offset field
of an entry is never consulted. -/
def readImagesSpec (s : List Nat) : List IconEntry → Nat → Except IcoError (List (List Nat))
  | [], _ => .ok []
  | e :: rest, off =>
    if e.reserved ≠ 0 then .error (.invalidEntryReserved e.reserved)
    else if e.planes ≠ 0 ∧ e.planes ≠ 1 then .error (.invalidEntryPlanes e.planes)
    else if s.length < off + e.image_size then .error .truncatedImageData
    else
      match readImagesSpec s rest (off + e.image_size) with
      | .error err => .error err
      | .ok blobs => .ok ((s.drop off).take e.image_size :: blobs)

/-- Claim-side list of header validations in their fixed order, each paired
with the error it raises, the value-carrying ones holding the actual value. -/
def headerChecks (h : IcoHeader) : List (Bool × IcoError) :=
  [ (h.reserved != 0, .invalidHeaderReserved h.reserved),
    (h.type == 2, .wrongContainerType),
    (h.type != 1, .invalidContainerType h.type),
    (h.entries_count == 0, .noImageEntries) ]

/-- Returns the error of the first failing check, scanning left to right. -/
def firstFailure : List (Bool × IcoError) → Option IcoError
  | [] => none
  | (b, e) :: rest => if b then some e else firstFailure rest

/-- Claim-side header reading: a stream too short for the 6-byte header is
truncated; otherwise the checks run in their fixed order and the first
failure decides the error. -/
def readHeaderSpec (s : List Nat) : Except IcoError IcoHeader :=
  if s.length < 6 then .error .truncatedHeader
  else
    let h := decode_header s
    match firstFailure (headerChecks h) with
    | some e => .error e
    | none => .ok h

/-- Claim-side conversion: the i-th resource entry copies the geometry of
the i-th directory entry, sets resource_size to its image_size, and takes
icon id i plus one, pairing the entries with the range starting at 1. -/
def convertSpec (entries : List IconEntry) : List ResourceEntry :=
  ((List.range' 1 entries.length).zip entries).map fun p =>
    { width := p.2.width
      height := p.2.height
      color_count := p.2.color_count
      reserved := p.2.reserved
      planes := p.2.planes
      bit_count := p.2.bit_count
      resource_size := p.2.image_size
      icon_id := p.1 }

/-- Claim-side 14-byte resource record layout: width, height, color count
and reserved as single bytes, then planes, bit count, resource size and
icon id little-endian with no offset field. -/
def resourceRecordSpec (e : ResourceEntry) : List Nat :=
  [ e.width % 256, e.height % 256, e.color_count % 256, e.reserved % 256,
    e.planes % 256, e.planes / 256 % 256,
    e.bit_count % 256, e.bit_count / 256 % 256,
    e.resource_size % 256, e.resource_size / 256 % 256,
    e.resource_size / 65536 % 256, e.resource_size / 16777216 % 256,
    e.icon_id % 256, e.icon_id / 256 % 256 ]

lemma read_images_drop (s : List Nat) :
    ∀ (entries : List IconEntry) (off : Nat), off ≤ s.length →
      read_images (s.drop off) entries = readImagesSpec s entries off := by
  intro entries
  induction entries with
  | nil => intro off _; rfl
  | cons e rest ih =>
    intro off hoff
    rw [read_images, readImagesSpec]
    by_cases hres : e.reserved ≠ 0
    · rw [if_pos hres, if_pos hres]
    · rw [if_neg hres, if_neg hres]
      by_cases hpl : e.planes ≠ 0 ∧ e.planes ≠ 1
      · rw [if_pos hpl, if_pos hpl]
      · rw [if_neg hpl, if_neg hpl]
        have hlen : (s.drop off).length = s.length - off := List.length_drop off s
        by_cases hsh : s.length < off + e.image_size
        · have h1 : (s.drop off).length < e.image_size := by omega
          rw [if_pos h1, if_pos hsh]
        · have h1 : ¬ (s.drop off).length < e.image_size := by omega
          rw [if_neg h1, if_neg hsh, List.drop_drop, ih (off + e.image_size) (by omega)]

/-- C1: the per-entry loop of the reader processes entries strictly in file
order, failing first on a nonzero reserved byte with the actual value, then
on planes outside 0 and 1 with the actual value, and otherwise takes the
next image_size bytes from the current position, so the i-th blob is the
contiguous run at the running offset given by the preceding sizes, with a
short run failing as truncatedImageData; the image_offset field plays no
role.  Stated as equality with the claim-side absolute-offset formulation
at offset zero. -/
theorem read_images_sequential (s : List Nat) (entries : List IconEntry) :
    read_images s entries = readImagesSpec s entries 0 := by
  have h := read_images_drop s entries 0 (Nat.zero_le _)
  rwa [List.drop_zero] at h

/-- C6: header validation checks the decoded fields in the fixed order
reserved, cursor type, icon type, entry count, stopping at the first
failure, and a stream shorter than the 6-byte header is truncated.  Stated
as equality with the claim-side first-failure scan. -/
theorem read_header_first_failure (s : List Nat) :
    read_header s = readHeaderSpec s := by
  rw [read_header, readHeaderSpec]
  by_cases hlen : s.length < 6
  · simp [hlen]
  · simp only [hlen, if_false, headerChecks, firstFailure]
    set h := decode_header s with hh
    by_cases h1 : h.reserved ≠ 0
    · simp [h1]
    · simp only [h1, if_false]
      by_cases h2 : h.type = 2
      · simp [h1, h2]
      · simp only [h2, if_false]
        by_cases h3 : h.type ≠ 1
        · simp [h1, h2, h3]
        · simp only [h3, if_false]
          by_cases h4 : h.entries_count = 0
          · simp [h1, h2, h3, h4]
          · simp [h1, h2, h3, h4]

lemma convert_entries_from_eq (k : Nat) (entries : List IconEntry) :
    convert_entries_from k entries =
      ((List.range' (k + 1) entries.length).zip entries).map fun p =>
        { width := p.2.width
          height := p.2.height
          color_count := p.2.color_count
          reserved := p.2.reserved
          planes := p.2.planes
          bit_count := p.2.bit_count
          resource_size := p.2.image_size
          icon_id := p.1 } := by
  induction entries generalizing k with
  | nil => rfl
  | cons e rest ih =>
    rw [convert_entries_from, List.length_cons, List.range'_succ, List.zip_cons_cons,
      List.map_cons, ih (k + 1)]

/-- C8: the icon ids of the converted resource entries are exactly
1, 2, ..., n in stored order, assigned by a 1-based counter in read order,
and the i-th resource entry copies the i-th directory entry with
resource_size equal to its image_size.  Stated as equality with the
claim-side pairing against the range starting at 1, together with the
resulting icon id sequence. -/
theorem convert_entries_ids (entries : List IconEntry) :
    convert_entries entries = convertSpec entries ∧
      (convert_entries entries).map ResourceEntry.icon_id =
        List.range' 1 entries.length := by
  have he : convert_entries entries = convertSpec entries := by
    rw [convert_entries, convertSpec, convert_entries_from_eq 0 entries]
  refine ⟨he, ?_⟩
  rw [he, convertSpec, List.map_map]
  have hlen : (List.range' 1 entries.length).length ≤ entries.length := by
    rw [List.length_range']
  calc ((List.range' 1 entries.length).zip entries).map
        ((fun e : ResourceEntry => e.icon_id) ∘ _) =
      ((List.range' 1 entries.length).zip entries).map Prod.fst := by
        apply List.map_congr_left; intro a _; rfl
    _ = List.range' 1 entries.length := List.map_fst_zip _ _ hlen

lemma serialize_entry_eq_spec (e : ResourceEntry) :
    serialize_entry e = resourceRecordSpec e := rfl

lemma serialize_entry_length (e : ResourceEntry) :
    (serialize_entry e).length = 14 := rfl

/-- C3: the serialized resource header is the 6-byte encoded header
followed by the 14-byte resource records in stored order, each laid out as
width, height, color count, reserved bytes then planes, bit count, resource
size and icon id little-endian with no offset field, for a total length of
6 plus 14 times the entry count; get_header is a total function of the icon
state. -/
theorem get_header_layout (ic : Icon) :
    get_header ic =
      serialize_header ic.resource_header
        ++ (ic.resource_entries.map resourceRecordSpec).flatten ∧
      (get_header ic).length = 6 + 14 * ic.resource_entries.length := by
  constructor
  · rfl
  · rw [get_header, List.length_append]
    have h6 : (serialize_header ic.resource_header).length = 6 := rfl
    rw [h6]
    congr 1
    induction ic.resource_entries with
    | nil => rfl
    | cons e rest ih =>
      rw [List.map_cons, List.flatten_cons, List.length_append,
        serialize_entry_length, ih, List.length_cons]
      ring

/-!
Concrete round trip material for the known-good single-image ICO of the
repository, whose first 22 bytes are the header and sole directory entry.
-/

/-- The first 22 bytes of the known-good single-image ICO: the 6-byte
header followed by its sole 16-byte directory entry. -/
def image1_header22 : List Nat :=
  [0x00, 0x00, 0x01, 0x00, 0x01, 0x00,
   0x20, 0x20, 0x00, 0x00, 0x01, 0x00, 0x20, 0x00,
   0xA8, 0x10, 0x00, 0x00, 0x01, 0x00, 0x00, 0x00]

/-- The known-good single-image ICO stream: the 22 directory bytes followed
by its payload of 4264 bytes. -/
def image1_bytes : List Nat :=
  image1_header22 ++ List.replicate 4264 0

lemma image1_bytes_length : image1_bytes.length = 4286 := by
  rw [image1_bytes, List.length_append, List.length_replicate]
  rfl

lemma image1_read_header : read_header image1_bytes = .ok ⟨0, 1, 1⟩ := by
  have hdec : decode_header image1_bytes = ⟨0, 1, 1⟩ := rfl
  unfold read_header
  rw [if_neg (by rw [image1_bytes_length]; norm_num), hdec]
  rfl

lemma image1_read_images :
    read_images (List.replicate 4264 0) [⟨32, 32, 0, 0, 1, 32, 4264, 1⟩]
      = .ok [List.replicate 4264 0] := by
  rw [read_images, if_neg (by norm_num), if_neg (by norm_num),
    if_neg (by rw [List.length_replicate]; norm_num), read_images,
    List.take_replicate]
  norm_num

lemma image1_load :
    load_icon image1_bytes =
      .ok ⟨⟨0, 1, 1⟩, [⟨32, 32, 0, 0, 1, 32, 4264, 1⟩], [List.replicate 4264 0]⟩ := by
  have hc : ¬ ((image1_bytes.drop 6).length
      < (IcoHeader.entries_count ⟨0, 1, 1⟩) * 16) := by
    rw [List.length_drop, image1_bytes_length]
    norm_num
  have hdrop : (image1_bytes.drop 6).drop ((IcoHeader.entries_count ⟨0, 1, 1⟩) * 16)
      = List.replicate 4264 0 := rfl
  have hentries : decode_entries (IcoHeader.entries_count ⟨0, 1, 1⟩) (image1_bytes.drop 6)
      = [⟨32, 32, 0, 0, 1, 32, 4264, 1⟩] := rfl
  have hbody : load_after_header image1_bytes ⟨0, 1, 1⟩ =
      .ok ⟨⟨0, 1, 1⟩, [⟨32, 32, 0, 0, 1, 32, 4264, 1⟩], [List.replicate 4264 0]⟩ := by
    unfold load_after_header
    rw [if_neg hc, hdrop, hentries, image1_read_images]
    rfl
  unfold load_icon
  rw [image1_read_header]
  exact hbody

/-- C2 counterexample: parsing the known-good single-image ICO and
serializing the resource header does not reproduce the 22-byte input
sequence, because the packed 14-byte resource record carries no two-byte
tail, so the serializer emits 20 bytes. -/
theorem image1_serialize_ne_input :
    (load_icon image1_bytes).map get_header ≠ .ok image1_header22 := by
  rw [image1_load]
  intro h
  exact absurd (Except.ok.inj h) (by decide)

/-- C2 amended: parsing the known-good single-image ICO yields exactly one
image blob of 4264 bytes and a sole resource entry with icon id 1, and
serializing the resource header yields the first 20 bytes of the 22-byte
input sequence, the 6-byte header followed by the packed 14-byte resource
record without the two-byte tail. -/
theorem image1_roundtrip_amended :
    (load_icon image1_bytes).map get_header = .ok (image1_header22.take 20) ∧
      (load_icon image1_bytes).map (fun ic => ic.images.map List.length) = .ok [4264] ∧
      (load_icon image1_bytes).map (fun ic => ic.resource_entries.map ResourceEntry.icon_id)
        = .ok [1] := by
  rw [image1_load]
  refine ⟨rfl, ?_, rfl⟩
  show Except.ok [(List.replicate 4264 (0 : Nat)).length] = Except.ok [4264]
  rw [List.length_replicate]

/-!
The bitmap side: the BMP loader and the BMP-to-ICO writer.  The loader is
embedded over an input-stream state because its source never enables
stream exceptions, so a short read merely raises the fail flag and leaves
the destination buffer with its previous contents.  Machine-width effects
of the source are kept explicit: size_t values are reduced modulo 2 to the
64, and a container construction whose requested size exceeds the maximum
signed 64-bit value aborts with an allocation failure, which is the only
way the source can fail once the headers validate.
-/

/-- An input file stream: the backing bytes, the read position, and the
fail flag; once the flag is set, reads and seeks do nothing. -/
structure InStream where
  data : List Nat
  pos : Nat
  failed : Bool
  deriving Repr, DecidableEq

/-- Reads n bytes into a destination buffer of length n: the available
bytes replace the front of the buffer, the rest keeps its old contents,
and reading fewer than n bytes sets the fail flag. -/
def istream_read (st : InStream) (dest : List Nat) (n : Nat) : List Nat × InStream :=
  if st.failed then (dest, st)
  else
    let a := min n (st.data.length - st.pos)
    ((st.data.drop st.pos).take a ++ dest.drop a,
      ⟨st.data, st.pos + a, decide (a < n)⟩)

/-- Absolute seek; a no-op on a failed stream, as seekg clears only the
end-of-file bit. -/
def istream_seek (st : InStream) (off : Nat) : InStream :=
  if st.failed then st else ⟨st.data, off, false⟩

/-- Overwrites the bytes of a list starting at a given offset. -/
def writeAt (l : List Nat) (off : Nat) (src : List Nat) : List Nat :=
  l.take off ++ src ++ l.drop (off + src.length)

/-- The bitmap object of bitmap.hpp: signed width and height as recorded
from the info header, the bit depth, and the packed pixel buffer. -/
structure Bitmap where
  width : Int
  height : Int
  bitDepth : Nat
  pixels : List Nat
  deriving Repr, DecidableEq

/-- Errors of the bitmap loader and writer. -/
inductive BmpError where
  | notABitmap : BmpError
  | unsupportedCompression : BmpError
  | allocationFailure : BmpError
  | unsupportedBitmapFormat : BmpError
  deriving Repr, DecidableEq

/-- One iteration of the pixel-row loop of bitmap::loadFromImage: read one
padded row into the row buffer, pick the destination row from the top-down
flag, and copy the unpadded row bytes into the pixel buffer. -/
def loadRowStep (topDown : Bool) (hNat rawRow padded : Nat)
    (acc : List Nat × List Nat × InStream) (y : Nat) : List Nat × List Nat × InStream :=
  let p := istream_read acc.2.2 acc.2.1 padded
  let destY := if topDown then y else hNat - 1 - y
  (writeAt acc.1 (destY * rawRow) (p.1.take rawRow), p.1, p.2)

/-- Embeds bitmap::loadFromImage on a byte stream: reads the two headers,
validates the signature and the compression code, records width, height
and bit depth exactly as decoded, and assembles the pixel buffer row by
row.  The height is the raw signed value, so a negative height makes the
requested pixel-buffer size wrap to a huge size_t and the construction
aborts. -/
def loadFromImage (s : List Nat) : Except BmpError (Bitmap × Bool) :=
  let r1 := istream_read ⟨s, 0, false⟩ (List.replicate 14 0) 14
  let r2 := istream_read r1.2 (List.replicate 40 0) 40
  let fh := r1.1
  let ih := r2.1
  if u16At fh 0 ≠ 0x4D42 then .error .notABitmap
  else if u32At ih 16 ≠ 0 then .error .unsupportedCompression
  else
    let width := i32At ih 4
    let height := i32At ih 8
    let bitDepth := u16At ih 14
    let topDown := decide (height < 0)
    let bytesPerPixel := bitDepth / 8
    let paddedRowSize :=
      ((((bitDepth : Int) * width + 31).tdiv 32 * 4).emod 18446744073709551616).toNat
    let rawRowSize := (width.emod 18446744073709551616).toNat * bytesPerPixel
      % 18446744073709551616
    let pixBytes := ((width * height).emod 18446744073709551616).toNat * bytesPerPixel
      % 18446744073709551616
    if 9223372036854775807 < pixBytes then .error .allocationFailure
    else if 9223372036854775807 < paddedRowSize then .error .allocationFailure
    else
      let st3 := istream_seek r2.2 (u32At fh 10)
      let res := (List.range height.toNat).foldl
        (loadRowStep topDown height.toNat rawRowSize paddedRowSize)
        (List.replicate pixBytes 0, List.replicate paddedRowSize 0, st3)
      .ok (⟨width, height, bitDepth, res.1⟩, true)

/-- The 6-byte ICONDIR the writer emits: reserved 0, type 1, count 1. -/
def icondir_bytes : List Nat := le16 0 ++ le16 1 ++ le16 1

/-- The 16-byte ICONDIRENTRY the writer emits for a w by h bitmap: width
and height truncated to bytes, planes 1, bit count 32, resource size of
info header plus color data plus mask, and image offset 6 plus 16. -/
def ico_entry_bytes (w h : Nat) : List Nat :=
  [w % 256, h % 256, 0, 0] ++ le16 1 ++ le16 32
    ++ le32 (40 + (w * h * 4 + (w + 31) / 32 * 4 * h))
    ++ le32 (6 + 16)

/-- The 40-byte info header the writer emits: doubled height and bit count
32, image size equal to the color data size, other fields zeroed. -/
def bih_bytes (w h : Nat) : List Nat :=
  le32 40 ++ le32 w ++ le32 (h * 2) ++ le16 1 ++ le16 32 ++ le32 0
    ++ le32 (w * h * 4) ++ le32 0 ++ le32 0 ++ le32 0 ++ le32 0

/-- The color plane the writer emits: the descending row loop of the
source, widening each stored BGR pixel to BGRA with alpha 255. -/
def pixel_plane (b : Bitmap) (w h : Nat) : List Nat :=
  ((List.range h).reverse).flatMap fun y =>
    (List.range w).flatMap fun x =>
      [b.pixels.getD ((y * w + x) * 3) 0,
       b.pixels.getD ((y * w + x) * 3 + 1) 0,
       b.pixels.getD ((y * w + x) * 3 + 2) 0,
       255]

/-- The all-zero AND mask the writer emits, one padded row per pixel row. -/
def mask_bytes (w h : Nat) : List Nat := List.replicate ((w + 31) / 32 * 4 * h) 0

/-- Embeds bitmap::saveToIco: rejects anything but a positive-size 24-bit
bitmap, then emits directory, entry, info header, color plane and mask. -/
def saveToIco (b : Bitmap) : Except BmpError (List Nat × Bool) :=
  if b.width ≤ 0 ∨ b.height ≤ 0 ∨ b.bitDepth ≠ 24 then .error .unsupportedBitmapFormat
  else
    .ok (icondir_bytes ++ ico_entry_bytes b.width.toNat b.height.toNat
      ++ bih_bytes b.width.toNat b.height.toNat
      ++ pixel_plane b b.width.toNat b.height.toNat
      ++ mask_bytes b.width.toNat b.height.toNat, true)

/-- A 58-byte top-down BMP: 1 wide, declared height minus one, 24-bit,
uncompressed, pixel data at offset 54 with one padded row present. -/
def topdown_bmp : List Nat :=
  [0x42, 0x4D, 58, 0, 0, 0, 0, 0, 0, 0, 54, 0, 0, 0]
    ++ [40, 0, 0, 0, 1, 0, 0, 0, 0xFF, 0xFF, 0xFF, 0xFF, 1, 0, 24, 0,
        0, 0, 0, 0, 0, 0, 0, 0, 0, 0, 0, 0, 0, 0, 0, 0, 0, 0, 0, 0, 0, 0, 0, 0]
    ++ [0, 0, 255, 0]

/-- A 54-byte truncated BMP: a complete header pair declaring a 1 by 1
24-bit uncompressed image with pixel data at offset 54, but no pixel bytes
at all after the headers. -/
def truncated_bmp : List Nat :=
  [0x42, 0x4D, 54, 0, 0, 0, 0, 0, 0, 0, 54, 0, 0, 0]
    ++ [40, 0, 0, 0, 1, 0, 0, 0, 1, 0, 0, 0, 1, 0, 24, 0,
        0, 0, 0, 0, 0, 0, 0, 0, 0, 0, 0, 0, 0, 0, 0, 0, 0, 0, 0, 0, 0, 0, 0, 0]

/-- C4 evaluation at the failing input: on a top-down BMP, whose declared
height is negative, the loader does not take the absolute value of the
height, so the requested pixel-buffer size wraps to a huge size_t and the
load aborts with an allocation failure instead of decoding the rows
top-down. -/
theorem topdown_bmp_alloc_fail :
    loadFromImage topdown_bmp = .error .allocationFailure := rfl

/-- C5 evaluation at the failing input: on a BMP whose pixel-data region is
missing entirely, the loader returns normally with a zero-filled pixel
buffer, because the stream has no exceptions enabled and the short row
read only sets the fail flag; no truncation error is ever produced. -/
theorem truncated_bmp_silent_ok :
    loadFromImage truncated_bmp = .ok (⟨1, 1, 24, [0, 0, 0]⟩, true) := rfl

/-- Maps a bitmap-operation result to its returned flag, an error mapping
to true vacuously. -/
def ret_flag {α : Type} : Except BmpError (α × Bool) → Bool
  | .ok r => r.2
  | .error _ => true

/-- C9: whenever loadFromImage or saveToIco returns normally, the returned
boolean is true; every failure is signaled by an error, never by a false
return value. -/
theorem bitmap_ops_return_true (s : List Nat) (b : Bitmap) :
    ret_flag (loadFromImage s) = true ∧ ret_flag (saveToIco b) = true := by
  constructor
  · dsimp only [loadFromImage]
    split
    · rfl
    · split
      · rfl
      · split
        · rfl
        · split
          · rfl
          · rfl
  · dsimp only [saveToIco]
    split
    · rfl
    · rfl

/-- Claim-side row of the color plane: the pixels of stored row r, each
widened from BGR to BGRA with alpha 255. -/
def bgra_row (b : Bitmap) (w r : Nat) : List Nat :=
  (List.range w).flatMap fun x =>
    [b.pixels.getD ((r * w + x) * 3) 0,
     b.pixels.getD ((r * w + x) * 3 + 1) 0,
     b.pixels.getD ((r * w + x) * 3 + 2) 0,
     255]

/-- Claim-side color plane: the pixel rows listed bottom-to-top. -/
def pixel_plane_spec (b : Bitmap) (w h : Nat) : List Nat :=
  ((List.range h).map fun k => bgra_row b w (h - 1 - k)).flatten

/-- Claim-side writer output for an accepted bitmap: header with type 1
and count 1; directory entry with width and height truncated to 8 bits,
planes 1, bit count 32, image size of info header plus color data plus
mask, offset 22; info header with doubled height and bit count 32; the
color plane rows bottom-to-top widened to BGRA with alpha 255; and an
all-zero AND mask of one padded mask row per pixel row. -/
def saveToIcoSpec (b : Bitmap) : List Nat :=
  le16 0 ++ le16 1 ++ le16 1
    ++ ([b.width.toNat % 256, b.height.toNat % 256, 0, 0] ++ le16 1 ++ le16 32
        ++ le32 (40 + b.width.toNat * b.height.toNat * 4
            + (b.width.toNat + 31) / 32 * 4 * b.height.toNat) ++ le32 22)
    ++ (le32 40 ++ le32 b.width.toNat ++ le32 (2 * b.height.toNat) ++ le16 1 ++ le16 32
        ++ le32 0 ++ le32 (b.width.toNat * b.height.toNat * 4)
        ++ le32 0 ++ le32 0 ++ le32 0 ++ le32 0)
    ++ pixel_plane_spec b b.width.toNat b.height.toNat
    ++ List.replicate ((b.width.toNat + 31) / 32 * 4 * b.height.toNat) 0

lemma flatten_map_eq {α β : Type} (f : α → List β) (l : List α) :
    (l.map f).flatten = l.flatMap f := by
  rw [List.flatten_eq_flatMap, List.flatMap_map]
  rfl

lemma pixel_plane_eq (b : Bitmap) (w h : Nat) :
    pixel_plane b w h = pixel_plane_spec b w h := by
  rw [pixel_plane, pixel_plane_spec, flatten_map_eq]
  conv_lhs => rw [List.range_eq_range', List.reverse_range', List.flatMap_map]
  refine congrArg _ (funext fun a => ?_)
  rw [Nat.zero_add]
  rfl

/-- C7: for a bitmap with positive width and height and bit depth 24, the
writer emits exactly the claimed stream: type 1, count 1, the truncated
geometry byte pair, planes 1, bit count 32, the composite image size, the
doubled-height 32-bit info header, the bottom-to-top BGRA color plane with
alpha 255, and the all-zero padded AND mask; any other bitmap is rejected
with the unsupported-format error. -/
theorem saveToIco_correct (b : Bitmap) :
    (0 < b.width → 0 < b.height → b.bitDepth = 24 →
      saveToIco b = .ok (saveToIcoSpec b, true)) ∧
    ((b.width ≤ 0 ∨ b.height ≤ 0 ∨ b.bitDepth ≠ 24) →
      saveToIco b = .error .unsupportedBitmapFormat) := by
  constructor
  · intro h1 h2 h3
    have hc : ¬ (b.width ≤ 0 ∨ b.height ≤ 0 ∨ b.bitDepth ≠ 24) := by
      push_neg
      exact ⟨h1, h2, h3⟩
    rw [saveToIco, if_neg hc, saveToIcoSpec, icondir_bytes, ico_entry_bytes, bih_bytes,
      mask_bytes, pixel_plane_eq]
    have ha : 40 + (b.width.toNat * b.height.toNat * 4
        + (b.width.toNat + 31) / 32 * 4 * b.height.toNat)
        = 40 + b.width.toNat * b.height.toNat * 4
          + (b.width.toNat + 31) / 32 * 4 * b.height.toNat := by
      omega
    rw [ha, Nat.mul_comm b.height.toNat 2]
  · intro h
    rw [saveToIco, if_pos h]

/-- C7 witness: the theorem applied to a concrete 1 by 1 24-bit bitmap and
to a concrete empty bitmap violating the precondition. -/
theorem saveToIco_correct_witness :
    saveToIco ⟨1, 1, 24, [10, 20, 30]⟩ = .ok (saveToIcoSpec ⟨1, 1, 24, [10, 20, 30]⟩, true) ∧
      saveToIco ⟨0, 0, 0, []⟩ = .error .unsupportedBitmapFormat :=
  ⟨(saveToIco_correct ⟨1, 1, 24, [10, 20, 30]⟩).1 (by decide) (by decide) rfl,
   (saveToIco_correct ⟨0, 0, 0, []⟩).2 (by decide)⟩

/-- The resource size the writer records for a w by h bitmap: the info
header plus the color data plus the padded mask. -/
def ico_image_size (w h : Nat) : Nat :=
  40 + (w * h * 4 + (w + 31) / 32 * 4 * h)

/-- The payload the writer emits after the directory: info header, color
plane, mask. -/
def ico_payload (b : Bitmap) : List Nat :=
  bih_bytes b.width.toNat b.height.toNat
    ++ pixel_plane b b.width.toNat b.height.toNat
    ++ mask_bytes b.width.toNat b.height.toNat

lemma ico_entry_bytes_length (w h : Nat) : (ico_entry_bytes w h).length = 16 := rfl

lemma bih_bytes_length (w h : Nat) : (bih_bytes w h).length = 40 := rfl

lemma range_flatMap_length (f : Nat → List Nat) (w : Nat) (hf : ∀ x, (f x).length = 4) :
    ((List.range w).flatMap f).length = w * 4 := by
  rw [List.length_flatMap]
  have hc : List.length ∘ f = fun _ => 4 := funext fun x => hf x
  rw [hc, List.map_const', List.length_range, List.sum_replicate, smul_eq_mul]

lemma pixel_plane_length (b : Bitmap) (w h : Nat) :
    (pixel_plane b w h).length = h * (w * 4) := by
  rw [pixel_plane, List.length_flatMap]
  have hc : (List.length ∘ fun y =>
      (List.range w).flatMap fun x =>
        [b.pixels.getD ((y * w + x) * 3) 0,
         b.pixels.getD ((y * w + x) * 3 + 1) 0,
         b.pixels.getD ((y * w + x) * 3 + 2) 0,
         255]) = fun _ => w * 4 :=
    funext fun y => range_flatMap_length _ w fun x => rfl
  rw [hc, List.map_const', List.length_reverse, List.length_range,
    List.sum_replicate, smul_eq_mul]

lemma load_single_image (w h : Nat) (payload : List Nat)
    (hsz : 40 + (w * h * 4 + (w + 31) / 32 * 4 * h) < 4294967296)
    (hplen : payload.length = 40 + (w * h * 4 + (w + 31) / 32 * 4 * h)) :
    load_icon (icondir_bytes ++ ico_entry_bytes w h ++ payload)
      = .ok ⟨⟨0, 1, 1⟩,
          [⟨w % 256, h % 256, 0, 0, 1, 32,
            40 + (w * h * 4 + (w + 31) / 32 * 4 * h), 1⟩],
          [payload]⟩ := by
  have hdec : decode_header (icondir_bytes ++ ico_entry_bytes w h ++ payload)
      = ⟨0, 1, 1⟩ := rfl
  have hlen6 : ¬ ((icondir_bytes ++ ico_entry_bytes w h ++ payload).length < 6) := by
    simp [icondir_bytes, le16, List.length_append]
  have hrh : read_header (icondir_bytes ++ ico_entry_bytes w h ++ payload)
      = .ok ⟨0, 1, 1⟩ := by
    unfold read_header
    rw [if_neg hlen6, hdec]
    rfl
  have hdrop6 : (icondir_bytes ++ ico_entry_bytes w h ++ payload).drop 6
      = ico_entry_bytes w h ++ payload := rfl
  have hc16 : ¬ (((icondir_bytes ++ ico_entry_bytes w h ++ payload).drop 6).length
      < (IcoHeader.entries_count ⟨0, 1, 1⟩) * 16) := by
    rw [hdrop6, List.length_append, ico_entry_bytes_length]
    show ¬ (16 + payload.length < 1 * 16)
    omega
  have hdece : decode_entries (IcoHeader.entries_count ⟨0, 1, 1⟩)
      ((icondir_bytes ++ ico_entry_bytes w h ++ payload).drop 6)
      = [⟨w % 256, h % 256, 0, 0, 1, 32,
          40 + (w * h * 4 + (w + 31) / 32 * 4 * h), 22⟩] := by
    have h0 : decode_entries (IcoHeader.entries_count ⟨0, 1, 1⟩)
        ((icondir_bytes ++ ico_entry_bytes w h ++ payload).drop 6)
        = [⟨w % 256 % 256, h % 256 % 256, 0, 0, 1, 32,
            (40 + (w * h * 4 + (w + 31) / 32 * 4 * h)) % 256 % 256
              + 256 * ((40 + (w * h * 4 + (w + 31) / 32 * 4 * h)) / 256 % 256 % 256)
              + 65536 * ((40 + (w * h * 4 + (w + 31) / 32 * 4 * h)) / 65536 % 256 % 256)
              + 16777216 * ((40 + (w * h * 4 + (w + 31) / 32 * 4 * h)) / 16777216 % 256 % 256),
            22⟩] := rfl
    rw [h0]
    simp only [List.cons.injEq, IconEntry.mk.injEq, and_true, true_and]
    omega
  have hdropT : ((icondir_bytes ++ ico_entry_bytes w h ++ payload).drop 6).drop
      ((IcoHeader.entries_count ⟨0, 1, 1⟩) * 16) = payload := rfl
  have hri : read_images payload
      [⟨w % 256, h % 256, 0, 0, 1, 32,
        40 + (w * h * 4 + (w + 31) / 32 * 4 * h), 22⟩]
      = .ok [payload] := by
    rw [read_images, if_neg (by norm_num), if_neg (by norm_num),
      if_neg (by
        show ¬ (payload.length < 40 + (w * h * 4 + (w + 31) / 32 * 4 * h))
        omega),
      read_images]
    rw [show ((⟨w % 256, h % 256, 0, 0, 1, 32,
        40 + (w * h * 4 + (w + 31) / 32 * 4 * h), 22⟩ : IconEntry)).image_size
      = payload.length from hplen.symm, List.take_length]
  have hbody : load_after_header (icondir_bytes ++ ico_entry_bytes w h ++ payload) ⟨0, 1, 1⟩
      = .ok ⟨⟨0, 1, 1⟩,
          [⟨w % 256, h % 256, 0, 0, 1, 32,
            40 + (w * h * 4 + (w + 31) / 32 * 4 * h), 1⟩],
          [payload]⟩ := by
    unfold load_after_header
    rw [if_neg hc16, hdece, hdropT, hri]
    rfl
  unfold load_icon
  rw [hrh]
  exact hbody

/-- C10: the writer always records image offset 22, the size of the 6-byte
header plus the 16-byte directory entry, and writes the payload
immediately after the directory entry, so its output has the contiguous
layout the sequential reader assumes, and parsing the output finds exactly
the payload at the correct position.  The resource size must fit a 32-bit
field for the reader to see the written length. -/
theorem writer_reader_contiguous (b : Bitmap) (h1 : 0 < b.width) (h2 : 0 < b.height)
    (h3 : b.bitDepth = 24)
    (h4 : ico_image_size b.width.toNat b.height.toNat < 4294967296) :
    saveToIco b = .ok (icondir_bytes ++ ico_entry_bytes b.width.toNat b.height.toNat
        ++ ico_payload b, true) ∧
      (ico_entry_bytes b.width.toNat b.height.toNat).drop 12 = le32 22 ∧
      (icondir_bytes ++ ico_entry_bytes b.width.toNat b.height.toNat).length = 22 ∧
      (ico_payload b).length = ico_image_size b.width.toNat b.height.toNat ∧
      (load_icon (icondir_bytes ++ ico_entry_bytes b.width.toNat b.height.toNat
          ++ ico_payload b)).map Icon.images = .ok [ico_payload b] := by
  have hplen : (ico_payload b).length
      = 40 + (b.width.toNat * b.height.toNat * 4
          + (b.width.toNat + 31) / 32 * 4 * b.height.toNat) := by
    rw [ico_payload, List.length_append, List.length_append, bih_bytes_length,
      pixel_plane_length, mask_bytes, List.length_replicate]
    have hm : b.height.toNat * (b.width.toNat * 4)
        = b.width.toNat * b.height.toNat * 4 := by ring
    omega
  have hsz : 40 + (b.width.toNat * b.height.toNat * 4
      + (b.width.toNat + 31) / 32 * 4 * b.height.toNat) < 4294967296 := h4
  refine ⟨?_, rfl, rfl, hplen, ?_⟩
  · have hc : ¬ (b.width ≤ 0 ∨ b.height ≤ 0 ∨ b.bitDepth ≠ 24) := by
      push_neg
      exact ⟨h1, h2, h3⟩
    rw [saveToIco, if_neg hc]
    rfl
  · rw [load_single_image b.width.toNat b.height.toNat (ico_payload b) hsz hplen]
    rfl

/-- C10 witness: the theorem applied to a concrete 1 by 1 24-bit bitmap. -/
theorem writer_reader_contiguous_witness :
    saveToIco ⟨1, 1, 24, [10, 20, 30]⟩
        = .ok (icondir_bytes ++ ico_entry_bytes 1 1 ++ ico_payload ⟨1, 1, 24, [10, 20, 30]⟩,
            true) ∧
      (ico_entry_bytes 1 1).drop 12 = le32 22 ∧
      (icondir_bytes ++ ico_entry_bytes 1 1).length = 22 ∧
      (ico_payload ⟨1, 1, 24, [10, 20, 30]⟩).length = ico_image_size 1 1 ∧
      (load_icon (icondir_bytes ++ ico_entry_bytes 1 1
          ++ ico_payload ⟨1, 1, 24, [10, 20, 30]⟩)).map Icon.images
        = .ok [ico_payload ⟨1, 1, 24, [10, 20, 30]⟩] :=
  writer_reader_contiguous ⟨1, 1, 24, [10, 20, 30]⟩ (by decide) (by decide) rfl (by decide)

end IconChanger
